import Mathlib

/-!
# Verification of the paths-filter matching engine

Shallow embedding of the filter matching engine of the `dorny/paths-filter`
repository: the data model (`src/file.ts`), the rule parser and filter engine
(`src/filter.ts`), and the result exporting (`src/main.ts`), together with a
pattern matcher modelled from the specification (the glob matching itself is
performed by the external `picomatch` library, which is not part of the
repository's sources).

JavaScript strings are modelled as Lean `String`s, JavaScript arrays as Lean
lists, and deserialized YAML documents as an inductive `Yaml` value type.
Thrown JavaScript exceptions are modelled with `Except JsError`.
-/

namespace PathsFilter

/-- `ChangeStatus` enumeration from `src/file.ts`.  The string value of each
enum member is the lower-case name (`Added = 'added'`, ...). -/
inductive ChangeStatus where
  | added
  | copied
  | deleted
  | modified
  | renamed
  | unmerged
deriving DecidableEq, Repr

/-- The string value of a `ChangeStatus` enum member (`src/file.ts`). -/
def ChangeStatus.value : ChangeStatus → String
  | .added => "added"
  | .copied => "copied"
  | .deleted => "deleted"
  | .modified => "modified"
  | .renamed => "renamed"
  | .unmerged => "unmerged"

/-- `Object.values(ChangeStatus)` — the six enum string values in declaration
order, as used by `Filter.isChangeStatus` in `src/filter.ts`. -/
def changeStatusValues : List String :=
  ["added", "copied", "deleted", "modified", "renamed", "unmerged"]

/-- `File` from `src/file.ts`: `FileStatus & FileNumstat`.  The numstat
fields are carried through but never read by the matching engine. -/
structure File where
  filename : String
  status : ChangeStatus
  additions : Nat
  deletions : Nat
deriving DecidableEq, Repr

/-! ## Character-level string helpers

JavaScript string operations used by the filter (`split`, `trim`) are
implemented on `List Char` so that every definition is executable by plain
structural recursion. -/

/-- Split a character list on a separator character, JavaScript
`String.prototype.split(sep)` semantics: empty fields are kept and the empty
string yields `[[]]` (one empty field). -/
def splitOnChar (sep : Char) : List Char → List (List Char)
  | [] => [[]]
  | c :: cs =>
    match splitOnChar sep cs with
    | [] => [[c]]
    | field :: rest =>
      if c = sep then [] :: field :: rest
      else (c :: field) :: rest

/-- Whitespace characters removed by JavaScript `String.prototype.trim`:
WhiteSpace (tab, vertical tab, form feed, space, NBSP, BOM and the Zs
category) and LineTerminator (LF, CR, LS, PS). -/
def jsIsSpace (c : Char) : Bool :=
  c = ' ' ∨ c = '\t' ∨ c = '\n' ∨ c = '\r' ∨ c = '\x0b' ∨ c = '\x0c' ∨
  c = '\u00a0' ∨ c = '\ufeff' ∨ c = '\u1680' ∨
  ('\u2000' ≤ c ∧ c ≤ '\u200a') ∨ c = '\u2028' ∨ c = '\u2029' ∨
  c = '\u202f' ∨ c = '\u205f' ∨ c = '\u3000'

/-- JavaScript `String.prototype.trim` on a character list. -/
def trimChars (cs : List Char) : List Char :=
  ((cs.dropWhile jsIsSpace).reverse.dropWhile jsIsSpace).reverse

/-- `s.split(sep)` for a JavaScript string. -/
def jsSplit (sep : Char) (s : String) : List String :=
  (splitOnChar sep s.data).map List.asString

/-- `s.trim()` for a JavaScript string. -/
def jsTrim (s : String) : String :=
  (trimChars s.data).asString

/-! ## Pattern matcher

Modelled from the spec: the Pattern Matcher component (spec §4.1) is realised
in the repository by the external `picomatch` library — its code is not among
the repository sources — so the predicate below is built from the
specification's description of the required semantics:

* `**` matches zero or more full path segments, including segments starting
  with `.` (the mandatory `dot: true` policy);
* `*` matches within a single path segment, including a segment that starts
  with `.`, but never crosses a `/`; `?` matches a single character;
* an extglob negation group `!(p1|p2|...)` matches any string that does NOT
  match any of `p1..pn`;
* an empty pattern or an empty filename matches nothing, never throws.

The model covers exactly the pattern forms exercised by the configuration
rules of the specification's properties (`*`, `**`, `?`, literals and a
top-level negation group). -/

/-- Match one glob segment (no `/`) against one path segment:
`*` matches any run of characters, `?` one character, anything else itself. -/
def matchChars : List Char → List Char → Bool
  | [], ncs => ncs.isEmpty
  | p :: ps, ncs =>
    if p = '*' then
      match ncs with
      | [] => matchChars ps []
      | _ :: cs => matchChars ps ncs || matchChars (p :: ps) cs
    else
      match ncs with
      | [] => false
      | c :: cs => (if p = '?' then true else p = c) && matchChars ps cs
termination_by pcs ncs => (pcs.length, ncs.length)

/-- Match a list of glob segments against a list of path segments; the
segment `**` (globstar) matches zero or more whole path segments. -/
def matchSegs : List (List Char) → List (List Char) → Bool
  | [], ncs => ncs.isEmpty
  | p :: ps, [] => if p = ['*', '*'] then matchSegs ps [] else false
  | p :: ps, n :: ns =>
    if p = ['*', '*'] then matchSegs ps (n :: ns) || matchSegs (p :: ps) ns
    else matchChars p n && matchSegs ps ns
termination_by pcs ncs => (pcs.length, ncs.length)

/-- Plain (non-negated) glob match: split both the pattern and the filename
into `/`-separated segments and match segment-wise. -/
def segGlob (pcs ncs : List Char) : Bool :=
  matchSegs (splitOnChar '/' pcs) (splitOnChar '/' ncs)

/-- Recognise a top-level extglob negation group `!( ... )`, returning the
inner characters. -/
def stripNegGroup : List Char → Option (List Char)
  | '!' :: '(' :: rest =>
    match rest.reverse with
    | ')' :: mid => some mid.reverse
    | _ => none
  | _ => none

/-- Modelled from the spec: the predicate produced for one glob pattern with
the mandatory `{dot: true}` option set (spec §4.1).  An empty pattern or an
empty filename matches nothing; a top-level `!(p1|p2|...)` group matches
exactly the strings matched by none of `p1..pn`. -/
def globMatch (pattern name : String) : Bool :=
  if pattern.data.isEmpty ∨ name.data.isEmpty then false
  else
    match stripNegGroup pattern.data with
    | some inner => ! (splitOnChar '|' inner).any (fun p => segGlob p name.data)
    | none => segGlob pattern.data name.data

/-- Modelled from the spec: `picomatch(patterns, {dot: true, ignore})` — the
matcher accepts a filename iff some pattern matches it and no ignore glob
matches it (the ignore option of the pattern-matching library, used by the
`paths_ignore`/`globalIgnoreArray` machinery of `src/filter.ts`). -/
def pmMatch (patterns ignore : List String) (name : String) : Bool :=
  (patterns.any fun p => globMatch p name) &&
    ! (ignore.any fun p => globMatch p name)

/-! ## Deserialized YAML documents

`jsyaml.load` produces a plain JavaScript value; YAML anchors and aliases are
already resolved at that point, so the parser sees a literal (possibly shared)
tree.  `Yaml` models such a value.  JavaScript object keys are strings and are
unique within one object. -/

/-- A deserialized configuration document node (the JavaScript value
returned by `jsyaml.load`). -/
inductive Yaml where
  | str (s : String)
  | num (n : Int)
  | bool (b : Bool)
  | null
  | seq (items : List Yaml)
  | map (entries : List (String × Yaml))
deriving Repr

/-- JavaScript truthiness of a `Yaml` value (`if (item.paths_ignore)` in
`Filter.parseFilterItemYaml`): `null`/`''`/`0`/`false` are falsy, every
object — including an empty array or object — is truthy. -/
def truthy : Yaml → Bool
  | .str s => ¬ s.data.isEmpty
  | .num n => n ≠ 0
  | .bool b => b
  | .null => false
  | .seq _ => true
  | .map _ => true

/-- `typeof` of a `Yaml` value in JavaScript (`typeof null` is `'object'`). -/
def jsTypeof : Yaml → String
  | .str _ => "string"
  | .num _ => "number"
  | .bool _ => "boolean"
  | .null => "object"
  | .seq _ => "object"
  | .map _ => "object"

/-- `Filter.isStringsArray` from `src/filter.ts`: an array whose every
element is a string (vacuously true for an empty array); false for any
non-array value. -/
def isStringsArray : Yaml → Bool
  | .seq items => items.all fun | .str _ => true | _ => false
  | _ => false

/-- The strings of an all-strings array (used after `isStringsArray` holds);
the TypeScript code passes the array unchanged to `picomatch`. -/
def stringsOf : List Yaml → List String
  | [] => []
  | .str s :: rest => s :: stringsOf rest
  | _ :: rest => stringsOf rest

/-! ## Errors -/

/-- A thrown JavaScript exception: either the `Error` thrown by
`Filter.throwInvalidFormatError`, or a built-in `TypeError` (e.g. from
`Object.keys(null)`). -/
inductive JsError where
  | invalidFilter (message : String)
  | typeError (message : String)
deriving DecidableEq, Repr

/-- `Filter.throwInvalidFormatError` from `src/filter.ts`: wraps the message
as `` `Invalid filter YAML format: ${message}.` ``. -/
def throwInvalidFormatError (message : String) : JsError :=
  .invalidFilter ("Invalid filter YAML format: " ++ message ++ ".")

/-- The `TypeError` raised by `Object.keys(null)` / `Object.entries(null)`. -/
def nullObjectTypeError : JsError :=
  .typeError "Cannot convert undefined or null to object"

/-- `JSON.stringify` for the values interpolated into the parser's error
messages (strings, arrays of strings); quotation marks and backslashes are
escaped. -/
def jsonQuote (s : String) : String :=
  "\"" ++ (s.data.flatMap fun c =>
    if c = '"' then ['\\', '"'] else if c = '\\' then ['\\', '\\'] else [c]).asString ++ "\""

/-- `JSON.stringify` of an array of strings. -/
def jsonStringList (xs : List String) : String :=
  "[" ++ String.intercalate "," (xs.map jsonQuote) ++ "]"

/-! ## Rule parsing (`src/filter.ts`) -/

/-- Internal representation of one item of a named filter rule
(`FilterRuleItem` in `src/filter.ts`).  The `isMatch` closure produced by
`picomatch(pattern, MatchOptions)` is represented by its data: the pattern
argument and the `ignore` globs captured in `MatchOptions`. -/
structure FilterRuleItem where
  /-- Required change status of the matched files; `none` models the
  `undefined` status of a plain pattern item. -/
  status : Option (List ChangeStatus)
  /-- The `string | string[]` argument passed to `picomatch`. -/
  patterns : List String
  /-- `MatchOptions.ignore` at matcher-creation time
  (`excludes ++ globalIgnoreArray`). -/
  ignore : List String
deriving DecidableEq, Repr

/-- The matcher closure of a `FilterRuleItem` applied to a filename. -/
def FilterRuleItem.matches (item : FilterRuleItem) (name : String) : Bool :=
  pmMatch item.patterns item.ignore name

/-- `Filter.isChangeStatus` from `src/filter.ts`:
`Object.values(ChangeStatus).includes(test)` — exact string comparison with
the six lower-case enum values — and a thrown Invalid-filter error otherwise.
On success the code keeps `x.toLowerCase()`, which is the identity on the
already-lower-case validated token; the Lean model returns the corresponding
enum member. -/
def checkChangeStatus (test : String) : Except JsError ChangeStatus :=
  if test = "added" then .ok .added
  else if test = "copied" then .ok .copied
  else if test = "deleted" then .ok .deleted
  else if test = "modified" then .ok .modified
  else if test = "renamed" then .ok .renamed
  else if test = "unmerged" then .ok .unmerged
  else .error (throwInvalidFormatError
    ("Change Status Filter Validation: Expected one of " ++
      jsonStringList changeStatusValues ++ ", instead " ++ test ++ " found."))

/-- Specification-side lookup of a status token: the token's `ChangeStatus`
when it is exactly one of the six enum string values, `none` otherwise.
Used to state which keys the status validation accepts. -/
def statusOf? (test : String) : Option ChangeStatus :=
  if test = "added" then some .added
  else if test = "copied" then some .copied
  else if test = "deleted" then some .deleted
  else if test = "modified" then some .modified
  else if test = "renamed" then some .renamed
  else if test = "unmerged" then some .unmerged
  else none

/-- The status tokens of a status-qualified mapping key:
`key.split('|').map(x => x.trim()).filter(x => x.length > 0)`. -/
def statusTokens (key : String) : List String :=
  ((jsSplit '|' key).map jsTrim).filter fun x => ¬ x.data.isEmpty

mutual

/-- String rendering of a `Yaml` value by JavaScript template interpolation
(`` `${pattern}` ``): arrays join their recursively stringified elements
with `,` (a `null` element renders as the empty string), objects render as
`[object Object]`. -/
def jsTemplate : Yaml → String
  | .str s => s
  | .num n => toString n
  | .bool b => if b then "true" else "false"
  | .null => "null"
  | .seq items => String.intercalate "," (jsTemplateList items)
  | .map _ => "[object Object]"

/-- Stringification of array elements under template interpolation
(`Array.prototype.toString`): `null` elements render empty. -/
def jsTemplateList : List Yaml → List String
  | [] => []
  | .null :: rest => "" :: jsTemplateList rest
  | y :: rest => jsTemplate y :: jsTemplateList rest

end

/-- The error thrown by the single-entry (status-qualified) mapping case
when the value is neither a pattern string nor an array of pattern
strings. -/
def statusPatternError (key : String) (p : Yaml) : JsError :=
  throwInvalidFormatError
    ("Expected [key:string]= pattern:string | string[], but [" ++ key ++
      ":string]= " ++ jsTemplate p ++ ":" ++ jsTypeof p ++
      " Where pattern isArray:" ++
      (if (match p with | .seq _ => true | _ => false) then "true" else "false") ++
      " isArrayofStrings:" ++
      (if isStringsArray p then "true" else "undefined") ++ " found.")

/-- The single-entry (status-qualified) mapping case of
`Filter.parseFilterItemYaml`: the value must be a pattern string or an array
of pattern strings, and every `|`-separated status token of the key must pass
`isChangeStatus` (evaluated left to right, aborting at the first failure,
like `Array.prototype.map` over a throwing callback). -/
def parseStatusEntry (key : String) (pattern : Yaml) (ign : List String) :
    Except JsError (List FilterRuleItem) :=
  match pattern with
  | .str s => do
    let sts ← (statusTokens key).mapM checkChangeStatus
    return [{status := some sts, patterns := [s], ignore := ign}]
  | .seq items =>
    if isStringsArray (.seq items) then do
      let sts ← (statusTokens key).mapM checkChangeStatus
      return [{status := some sts, patterns := stringsOf items, ignore := ign}]
    else
      .error (statusPatternError key (.seq items))
  | p => .error (statusPatternError key p)

/-- JavaScript array spread of the raw `excludes` value into
`MatchOptions.ignore` (`MatchOptions.ignore.push(...excludes, ...globalIgnoreArray)`,
`src/filter.ts` line 84).  The `excludes` parameter is declared `string[]`
but, through the unchecked `item.paths_ignore as excludesFilter` cast, can be
any truthy value: an array spreads into its elements, a string spreads into
its characters (one-character strings), and spreading any other value —
number, boolean, object, `null` — throws a `TypeError` (the modelled message
stands for the engine's `... is not iterable` text). -/
def spreadValue : Yaml → Except JsError (List Yaml)
  | .seq items => .ok items
  | .str s => .ok (s.data.map fun c => Yaml.str (String.singleton c))
  | _ => .error (.typeError "excludes is not iterable")

/-- Modelled from the spec: the glob sources handed to the pattern-matching
library must be strings — "Pattern compilation must fail (reported at Rule
Parser level, not deferred to match time) if the expression is not a string
when a string is structurally required" (spec §4.1).  The library (picomatch)
is external to the repository, so its failure on a non-string source is
modelled here, at parser level, as the spec prescribes. -/
def globSources : List Yaml → Except JsError (List String)
  | [] => .ok []
  | .str s :: rest => do
    let tl ← globSources rest
    return s :: tl
  | _ :: _ => .error (.typeError "Expected pattern to be a non-empty string")

/-- The `MatchOptions.ignore` list built at the top of every
`parseFilterItemYaml` call: the spread of the raw `excludes` value followed
by the constructor's `globalIgnoreArray`. -/
def buildIgnore (excludes : Yaml) (globalIgnoreArray : List String) :
    Except JsError (List String) := do
  let spread ← spreadValue excludes
  let strs ← globSources spread
  return strs ++ globalIgnoreArray

mutual

/-- `Filter.parseFilterItemYaml` from `src/filter.ts`.  The `excludes`
parameter is the raw JavaScript value passed through the
`item.paths_ignore as excludesFilter` cast (the top-level call passes the
empty array).  `MatchOptions` is `{dot: true, ignore}` with `ignore` built
by spreading `excludes` and `globalIgnoreArray` at function entry — so a
non-spreadable `excludes` throws before any branch runs.  Branches, in
source order: a string or an all-strings array becomes one status-less
matcher; any other array is parsed element-wise and flattened; an object
with exactly the two (truthy) keys `paths` and `paths_ignore` recurses into
`paths` with the raw `paths_ignore` value as the excludes; an object with
exactly one entry is a status-qualified entry; other objects are
Invalid-filter errors; `null` reaches the object branch
(`typeof null === 'object'`) where `Object.keys` throws a `TypeError`;
numbers and booleans fall through to the `Unexpected element type` error. -/
def parseFilterItemYaml (item excludes : Yaml) (globalIgnoreArray : List String) :
    Except JsError (List FilterRuleItem) :=
  match buildIgnore excludes globalIgnoreArray with
  | .error e => .error e
  | .ok ign =>
    match item with
    | .str s => .ok [{status := none, patterns := [s], ignore := ign}]
    | .seq items =>
      if isStringsArray (.seq items) then
        .ok [{status := none, patterns := stringsOf items, ignore := ign}]
      else
        parseFilterItemList items excludes globalIgnoreArray
    | .map entries =>
      match entries with
      | [(k1, v1), (k2, v2)] =>
        if k1 = "paths" ∧ k2 = "paths_ignore" ∧ truthy v2 ∧ truthy v1 then
          parseFilterItemYaml v1 v2 globalIgnoreArray
        else if k1 = "paths_ignore" ∧ k2 = "paths" ∧ truthy v1 ∧ truthy v2 then
          parseFilterItemYaml v2 v1 globalIgnoreArray
        else
          .error (throwInvalidFormatError
            ("Expected a filter rule object with keys paths & paths_ignore, or a single key for change status filter. Instead object keys: " ++
              jsonStringList [k1, k2] ++ " found."))
      | [(key, pattern)] => parseStatusEntry key pattern ign
      | _ =>
        .error (throwInvalidFormatError
          ("Expected a filter rule object with keys paths & paths_ignore, or a single key for change status filter. Instead object keys: " ++
            jsonStringList (entries.map Prod.fst) ++ " found."))
    | .null => .error nullObjectTypeError
    | .num _ => .error (throwInvalidFormatError "Unexpected element type 'number'")
    | .bool _ => .error (throwInvalidFormatError "Unexpected element type 'boolean'")

/-- `flat(item.map(i => this.parseFilterItemYaml(i, excludes, globalIgnoreArray)))`
— parse every element of an array and concatenate the results; the first
thrown error aborts the whole map. -/
def parseFilterItemList (items : List Yaml) (excludes : Yaml)
    (globalIgnoreArray : List String) : Except JsError (List FilterRuleItem) :=
  match items with
  | [] => .ok []
  | i :: rest => do
    let head ← parseFilterItemYaml i excludes globalIgnoreArray
    let tail ← parseFilterItemList rest excludes globalIgnoreArray
    return head ++ tail

end

/-! ## Loading (`Filter.load`) and matching (`Filter.match`) -/

/-- `Filter.rules` — the parsed rule table, an insertion-ordered mapping from
rule name to the rule's `FilterRuleItem` list (JavaScript object with string
keys). -/
abbrev Rules := List (String × List FilterRuleItem)

/-- `this.rules[key] = value` on a JavaScript object: replaces the value in
place if the key exists (keys keep their first-insertion position), appends
otherwise. -/
def setKey (rules : Rules) (key : String) (value : List FilterRuleItem) : Rules :=
  match rules with
  | [] => [(key, value)]
  | (k, v) :: rest =>
    if k = key then (k, value) :: rest
    else (k, v) :: setKey rest key value

mutual

/-- `JSON.stringify` of a `Yaml` value (as interpolated into the root-level
error message of `Filter.load`). -/
def jsonStringify : Yaml → String
  | .str s => jsonQuote s
  | .num n => toString n
  | .bool b => if b then "true" else "false"
  | .null => "null"
  | .seq items => "[" ++ String.intercalate "," (jsonStringifyList items) ++ "]"
  | .map entries => "\x7b" ++ String.intercalate "," (jsonStringifyEntries entries) ++ "\x7d"

/-- `JSON.stringify` of the elements of an array. -/
def jsonStringifyList : List Yaml → List String
  | [] => []
  | y :: rest => jsonStringify y :: jsonStringifyList rest

/-- `JSON.stringify` of the entries of an object. -/
def jsonStringifyEntries : List (String × Yaml) → List String
  | [] => []
  | (k, v) :: rest => (jsonQuote k ++ ":" ++ jsonStringify v) :: jsonStringifyEntries rest

end

/-- The per-entry body of the `Filter.load` loop: the root key is always a
string (JavaScript object keys are strings, so the
`typeof key !== 'string'` branch is unreachable), the value must be a string
or an array, then `parseFilterItemYaml` runs. -/
def loadEntries (entries : List (String × Yaml)) (globalIgnoreArray : List String)
    (acc : Rules) : Except JsError Rules :=
  match entries with
  | [] => .ok acc
  | (key, item) :: rest =>
    match item with
    | .str _ | .seq _ => do
      let parsed ← parseFilterItemYaml item (Yaml.seq []) globalIgnoreArray
      loadEntries rest globalIgnoreArray (setKey acc key parsed)
    | other =>
      .error (throwInvalidFormatError
        ("Filter rules must only be an array or a single string but we got " ++
          jsonStringify other ++ " type: " ++ jsTypeof other ++
          " isarray?: false"))

/-- `Filter.load` from `src/filter.ts`, applied to the already-deserialized
document (`jsyaml.load yaml`).  `typeof doc !== 'object'` rejects strings,
numbers and booleans; `null` passes the check (`typeof null === 'object'`)
and `Object.entries(null)` throws a `TypeError`; an array passes the check
and `Object.entries` enumerates it with its indices `"0"`, `"1"`, ... as
keys. -/
def load (doc : Yaml) (globalIgnoreArray : List String) : Except JsError Rules :=
  match doc with
  | .str _ | .num _ | .bool _ =>
    .error (throwInvalidFormatError "Root element is not an object")
  | .null => .error nullObjectTypeError
  | .seq items =>
    loadEntries (items.enum.map fun (i, v) => (toString i, v)) globalIgnoreArray []
  | .map entries => loadEntries entries globalIgnoreArray []

/-- `Filter.isMatch` from `src/filter.ts`: some item of the rule accepts the
file — `(rule.status === undefined || rule.status.includes(file.status)) &&
rule.isMatch(file.filename)`. -/
def isMatch (file : File) (patterns : List FilterRuleItem) : Bool :=
  patterns.any fun rule =>
    (match rule.status with
     | none => true
     | some sts => sts.contains file.status) && rule.matches file.filename

/-- `FilterResults` — mapping from rule name to the files that matched. -/
abbrev FilterResults := List (String × List File)

/-- `Filter.match` from `src/filter.ts`: for every rule, in rule-definition
order, the sub-list of `files` accepted by `Filter.isMatch`. -/
def Filter.match (rules : Rules) (files : List File) : FilterResults :=
  rules.map fun (key, patterns) => (key, files.filter fun file => isMatch file patterns)

/-! ## Output serialization (`src/list-format`, `src/main.ts`) -/

/-- The safe-character class of `csvEscape`
(`^[-a-zA-Z0-9._+:@%/]+$` with the `m` flag in `src/list-format/csv-escape.ts`). -/
def csvSafeChar (c : Char) : Bool :=
  c.isAlpha ∨ c.isDigit ∨ c = '.' ∨ c = '_' ∨ c = '+' ∨ c = ':' ∨ c = '@' ∨
    c = '%' ∨ c = '/' ∨ c = '-'

/-- `csvEscape` from `src/list-format/csv-escape.ts`: the empty string and
all-safe values pass through, anything else is wrapped in double quotes with
inner quotes doubled.  The source regex carries the `m` flag, so the
safe-character test succeeds when some `\n`-separated line of the value is
nonempty and all-safe. -/
def csvEscape (value : String) : String :=
  if value.data.isEmpty then value
  else if (splitOnChar '\n' value.data).any
      (fun line => ¬ line.isEmpty ∧ line.all csvSafeChar) then value
  else
    "\"" ++ (value.data.flatMap fun c =>
      if c = '"' then ['"', '"'] else [c]).asString ++ "\""

/-- `shellEscape` backslash variant (`backslashEscape` of
`src/list-format/shell-escape`, the `list-files: escape` format): every
character outside `[-a-zA-Z0-9,._+:@%/]` is backslash-escaped. -/
def backslashEscape (value : String) : String :=
  (value.data.flatMap fun c =>
    if csvSafeChar c ∨ c = ',' then [c] else ['\\', c]).asString

/-- `shellEscape` of `src/list-format/shell-escape` (the `list-files:
shell` format).  The file itself is absent from the staged sources, so this
follows the variant its tests (`__tests__/outputs.test.ts`) exercise: the
empty string becomes a pair of single quotes, a value that passes the same
per-line safe-character test as `csvEscape` passes through unquoted, and
anything else is wrapped in single quotes with each embedded quote rewritten
to a quoted escape. -/
def shellEscape (value : String) : String :=
  if value.data.isEmpty then "''"
  else if (splitOnChar '\n' value.data).any
      (fun line => ¬ line.isEmpty ∧ line.all csvSafeChar) then value
  else
    "'" ++ (value.data.flatMap fun c =>
      if c = '\'' then ['\'', '\\', '\'', '\''] else [c]).asString ++ "'"

/-- The value passed to `core.setOutput` in `exportResults`
(`src/main.ts`): a boolean, a number, or a string. -/
inductive OutValue where
  | boolean (b : Bool)
  | number (n : Nat)
  | string (s : String)
deriving DecidableEq, Repr

/-- The `list-files` export format (`ExportFormat` in `src/main.ts`). -/
inductive ExportFormat where
  | nofmt
  | csv
  | json
  | shell
  | escape
deriving DecidableEq, Repr

/-- `serializeExport` from `src/main.ts`. -/
def serializeExport (files : List File) (format : ExportFormat) : String :=
  let fileNames := files.map File.filename
  match format with
  | .csv => String.intercalate "," (fileNames.map csvEscape)
  | .json => jsonStringList fileNames
  | .escape => String.intercalate " " (fileNames.map backslashEscape)
  | .shell => String.intercalate " " (fileNames.map shellEscape)
  | .nofmt => ""

/-- `exportResults` from `src/main.ts`, as the ordered list of
`core.setOutput` calls it performs: per rule, the boolean output named by
the rule, the `_count` output, and (for a list format other than `none`)
the `_files` output; finally the `changes` output — the JSON list of the
rule names with a match, in rule order — unless a rule is itself named
`changes`. -/
def exportResults (results : FilterResults) (format : ExportFormat) :
    List (String × OutValue) :=
  (results.map fun (key, files) =>
    [(key, OutValue.boolean (decide (files.length > 0))),
     (key ++ "_count", OutValue.number files.length)] ++
    (if format ≠ .nofmt
     then [(key ++ "_files", OutValue.string (serializeExport files format))]
     else [])).flatten
  ++
  (if (results.lookup "changes").isNone then
    [("changes", OutValue.string
      (jsonStringList ((results.filter fun p => decide (p.2.length > 0)).map Prod.fst)))]
   else [])

/-! ## Result aggregation

Modelled from the spec: the Result Aggregator's process-wide outputs
(spec §4.4).  The repository's test suite (`__tests__/outputs.test.ts`)
expects `exportResults` to emit `any_changed` and `all_changed` outputs, but
the code computing them is not among the repository's source files, so the
aggregates are modelled from the specification's words: `anyChanged` is the
OR over all rules of `hasMatch`, `allChanged` the AND (vacuously true with
zero rules), and `changedRuleNames` the rule names with `hasMatch` true in
rule-definition order, all pure functions of `FilterResults`. -/

/-- Modelled from the spec: per-rule `hasMatch` (spec §4.4). -/
def hasMatch (results : FilterResults) (rule : String) : Bool :=
  (results.lookup rule).getD [] ≠ []

/-- Modelled from the spec: `anyChanged = OR over all rules of hasMatch`. -/
def anyChanged (results : FilterResults) : Bool :=
  results.any fun p => decide (p.2.length > 0)

/-- Modelled from the spec: `allChanged = AND over all rules of hasMatch`
(vacuously true if there are zero rules). -/
def allChanged (results : FilterResults) : Bool :=
  results.all fun p => decide (p.2.length > 0)

/-- Modelled from the spec: `changedRuleNames = ordered list of rule names
where hasMatch is true, in rule-definition order`. -/
def changedRuleNames (results : FilterResults) : List String :=
  (results.filter fun p => decide (p.2.length > 0)).map Prod.fst

/-! ## Helper lemmas -/

/-- A lone `*` glob segment matches every path segment. -/
theorem matchChars_star (cs : List Char) : matchChars ['*'] cs = true := by
  induction cs with
  | nil => simp [matchChars]
  | cons c cs ih => simp [matchChars, ih]

/-- A lone `**` glob matches every segment list. -/
theorem matchSegs_globstar (ss : List (List Char)) : matchSegs [['*', '*']] ss = true := by
  induction ss with
  | nil => simp [matchSegs]
  | cons s ss ih => simp [matchSegs, ih]

/-- `**/*` matches every nonempty segment list. -/
theorem matchSegs_globstar_star (ss : List (List Char)) (h : ss ≠ []) :
    matchSegs [['*', '*'], ['*']] ss = true := by
  induction ss with
  | nil => exact absurd rfl h
  | cons s ss ih =>
    cases ss with
    | nil => simp [matchSegs, matchChars_star]
    | cons s2 ss2 => simp [matchSegs, ih (by simp)]

theorem string_ne_empty_data {s : String} (h : s ≠ "") : s.data ≠ [] := by
  intro hd
  exact h (String.ext hd)

theorem data_isEmpty_false {s : String} (h : s ≠ "") : s.data.isEmpty = false := by
  simp [List.isEmpty_iff, string_ne_empty_data h]

/-- Splitting never produces an empty field list. -/
theorem splitOnChar_ne_nil (sep : Char) (cs : List Char) : splitOnChar sep cs ≠ [] := by
  cases cs with
  | nil => simp [splitOnChar]
  | cons c cs =>
    unfold splitOnChar
    rcases h : splitOnChar sep cs with _ | ⟨f, r⟩
    · simp
    · dsimp only
      split <;> simp

/-- On a non-negated pattern and nonempty operands, `globMatch` is plain
segment matching. -/
theorem globMatch_eq_segGlob (p name : String) (hp : stripNegGroup p.data = none)
    (hpne : p.data.isEmpty = false) (hne : name.data.isEmpty = false) :
    globMatch p name = segGlob p.data name.data := by
  unfold globMatch
  rw [if_neg (by simp [hpne, hne]), hp]

/-- The glob `**` matches every nonempty filename. -/
theorem globMatch_doublestar {name : String} (h : name ≠ "") :
    globMatch "**" name = true := by
  rw [globMatch_eq_segGlob "**" name rfl rfl (data_isEmpty_false h)]
  unfold segGlob
  have hsp : splitOnChar '/' "**".data = [['*', '*']] := rfl
  rw [hsp]
  exact matchSegs_globstar _

/-- The glob `**/*` matches every nonempty filename. -/
theorem globMatch_doublestar_star {name : String} (h : name ≠ "") :
    globMatch "**/*" name = true := by
  rw [globMatch_eq_segGlob "**/*" name rfl rfl (data_isEmpty_false h)]
  unfold segGlob
  have hsp : splitOnChar '/' "**/*".data = [['*', '*'], ['*']] := rfl
  rw [hsp]
  exact matchSegs_globstar_star _ (splitOnChar_ne_nil _ _)

/-- An empty pattern matches no filename. -/
theorem globMatch_empty_pattern (name : String) : globMatch "" name = false := by
  unfold globMatch
  simp

/-- No pattern matches the empty filename. -/
theorem globMatch_empty_name (p : String) : globMatch p "" = false := by
  unfold globMatch
  simp

/-- No compiled matcher accepts the empty filename. -/
theorem pmMatch_empty_name (ps ig : List String) : pmMatch ps ig "" = false := by
  unfold pmMatch
  have hh : (ps.any fun p => globMatch p "") = false := by
    rw [List.any_eq_false]
    intro p _
    simpa using globMatch_empty_name p
  simp [hh]

/-- `Filter.isMatch` unfolded to the specification's clause: some item of the
rule has a compatible status requirement and a matching pattern. -/
theorem isMatch_iff (f : File) (items : List FilterRuleItem) :
    isMatch f items = true ↔
      ∃ it ∈ items, (it.status = none ∨ ∃ ss, it.status = some ss ∧ f.status ∈ ss) ∧
        it.matches f.filename = true := by
  unfold isMatch
  rw [List.any_eq_true]
  constructor
  · rintro ⟨it, hmem, h⟩
    rw [Bool.and_eq_true] at h
    refine ⟨it, hmem, ?_, h.2⟩
    rcases hst : it.status with _ | ss
    · exact Or.inl rfl
    · right
      refine ⟨ss, rfl, ?_⟩
      have := h.1
      rw [hst] at this
      simpa using this
  · rintro ⟨it, hmem, hst, hm⟩
    refine ⟨it, hmem, ?_⟩
    rw [Bool.and_eq_true]
    refine ⟨?_, hm⟩
    rcases hst with h | ⟨ss, hss, hmem2⟩
    · rw [h]
    · rw [hss]
      simpa using hmem2

/-- Unwrapping an all-strings array. -/
theorem stringsOf_map_str (ss : List String) : stringsOf (ss.map Yaml.str) = ss := by
  induction ss with
  | nil => rfl
  | cons s rest ih => simp [stringsOf, ih]

/-- An array of strings passes `isStringsArray`. -/
theorem isStringsArray_map_str (ss : List String) :
    isStringsArray (Yaml.seq (ss.map Yaml.str)) = true := by
  simp only [isStringsArray, List.all_eq_true]
  intro y hy
  rw [List.mem_map] at hy
  obtain ⟨s, _, rfl⟩ := hy
  rfl

/-- Glob sources of an all-strings list. -/
theorem globSources_map_str (ss : List String) :
    globSources (ss.map Yaml.str) = .ok ss := by
  induction ss with
  | nil => rfl
  | cons s rest ih =>
    rw [List.map_cons]
    show (do
      let tl ← globSources (rest.map Yaml.str)
      return s :: tl) = _
    rw [ih]
    rfl

/-- Spreading an array of strings into the ignore option yields exactly those
strings followed by the global ignore array. -/
theorem buildIgnore_strings (ss g : List String) :
    buildIgnore (Yaml.seq (ss.map Yaml.str)) g = .ok (ss ++ g) := by
  unfold buildIgnore
  show (do
    let strs ← globSources (ss.map Yaml.str)
    return strs ++ g) = _
  rw [globSources_map_str]
  rfl

/-- Spreading a string into the ignore option yields its characters as
one-character ignore globs. -/
theorem buildIgnore_str (s : String) (g : List String) :
    buildIgnore (Yaml.str s) g = .ok (s.data.map String.singleton ++ g) := by
  unfold buildIgnore
  show (do
    let strs ← globSources (s.data.map fun c => Yaml.str (String.singleton c))
    return strs ++ g) = _
  have h : (s.data.map fun c => Yaml.str (String.singleton c)) =
      (s.data.map String.singleton).map Yaml.str := by
    rw [List.map_map]
    rfl
  rw [h, globSources_map_str]
  rfl

/-- `isChangeStatus` succeeds exactly on the tokens `statusOf?` knows. -/
theorem checkChangeStatus_of_some {t : String} {c : ChangeStatus}
    (h : statusOf? t = some c) : checkChangeStatus t = .ok c := by
  unfold statusOf? at h
  unfold checkChangeStatus
  split_ifs at h <;> simp_all

set_option linter.unnecessarySeqFocus false in
/-- `isChangeStatus` throws an Invalid-filter error on unknown tokens. -/
theorem checkChangeStatus_of_none {t : String} (h : statusOf? t = none) :
    ∃ msg, checkChangeStatus t = .error (JsError.invalidFilter msg) := by
  unfold statusOf? at h
  unfold checkChangeStatus
  split_ifs at h <;> simp_all
  exact ⟨_, rfl⟩

/-- Validating a token list succeeds when every token is known. -/
theorem mapM_checkChangeStatus_ok (toks : List String)
    (h : ∀ t ∈ toks, (statusOf? t).isSome = true) :
    toks.mapM checkChangeStatus = .ok (toks.filterMap statusOf?) := by
  induction toks with
  | nil => rfl
  | cons t ts ih =>
    have ht := h t (List.mem_cons_self t ts)
    rcases hs : statusOf? t with _ | c
    · rw [hs] at ht; simp at ht
    · rw [List.mapM_cons, checkChangeStatus_of_some hs,
        ih (fun x hx => h x (List.mem_cons_of_mem t hx))]
      simp only [List.filterMap_cons, hs]
      rfl

/-- Validating a token list throws when some token is unknown. -/
theorem mapM_checkChangeStatus_err (toks : List String)
    (h : ∃ t ∈ toks, statusOf? t = none) :
    ∃ msg, toks.mapM checkChangeStatus = .error (JsError.invalidFilter msg) := by
  induction toks with
  | nil => simp at h
  | cons t ts ih =>
    rcases hs : statusOf? t with _ | c
    · obtain ⟨msg, hmsg⟩ := checkChangeStatus_of_none hs
      refine ⟨msg, ?_⟩
      rw [List.mapM_cons, hmsg]
      rfl
    · obtain ⟨t', ht', hnone⟩ := h
      rcases List.mem_cons.mp ht' with rfl | hmem
      · rw [hs] at hnone; simp at hnone
      · obtain ⟨msg, hmsg⟩ := ih ⟨t', hmem, hnone⟩
        refine ⟨msg, ?_⟩
        rw [List.mapM_cons, checkChangeStatus_of_some hs, hmsg]
        rfl

/-- A matcher rejects every filename matched by one of its ignore globs. -/
theorem pmMatch_ignored (ps ig : List String) (name : String)
    (h : ig.any (fun p => globMatch p name) = true) : pmMatch ps ig name = false := by
  unfold pmMatch
  simp [h]

/-- A failing ignore construction aborts `parseFilterItemYaml` before any
branch runs (the spread happens at function entry). -/
theorem parse_entry_error (item excludes : Yaml) (g : List String) (e : JsError)
    (h : buildIgnore excludes g = .error e) :
    parseFilterItemYaml item excludes g = .error e := by
  rw [parseFilterItemYaml.eq_def, h]

/-- The pattern-string branch of `parseFilterItemYaml`. -/
theorem parse_str_step (s : String) (excludes : Yaml) (g ign : List String)
    (h : buildIgnore excludes g = .ok ign) :
    parseFilterItemYaml (Yaml.str s) excludes g =
      .ok [{status := none, patterns := [s], ignore := ign}] := by
  unfold parseFilterItemYaml
  rw [h]

/-- The all-strings-array branch of `parseFilterItemYaml`. -/
theorem parse_strings_step (items : List Yaml) (excludes : Yaml) (g ign : List String)
    (h : buildIgnore excludes g = .ok ign) (h2 : isStringsArray (Yaml.seq items) = true) :
    parseFilterItemYaml (Yaml.seq items) excludes g =
      .ok [{status := none, patterns := stringsOf items, ignore := ign}] := by
  unfold parseFilterItemYaml
  rw [h]
  dsimp only
  rw [if_pos h2]

/-- The `paths`/`paths_ignore` branch of `parseFilterItemYaml`: recursion
into `paths` with the raw `paths_ignore` value as excludes. -/
theorem parse_paths_step (v1 v2 : Yaml) (excludes : Yaml) (g ign : List String)
    (h : buildIgnore excludes g = .ok ign)
    (h1 : truthy v1 = true) (h2 : truthy v2 = true) :
    parseFilterItemYaml (Yaml.map [("paths", v1), ("paths_ignore", v2)]) excludes g =
      parseFilterItemYaml v1 v2 g := by
  conv_lhs => rw [parseFilterItemYaml.eq_def]
  rw [h]
  dsimp only
  rw [if_pos ⟨rfl, rfl, h2, h1⟩]

/-- The `paths`/`paths_ignore` branch with the keys in the other order. -/
theorem parse_paths_swapped_step (v1 v2 : Yaml) (excludes : Yaml) (g ign : List String)
    (h : buildIgnore excludes g = .ok ign)
    (h1 : truthy v1 = true) (h2 : truthy v2 = true) :
    parseFilterItemYaml (Yaml.map [("paths_ignore", v2), ("paths", v1)]) excludes g =
      parseFilterItemYaml v1 v2 g := by
  conv_lhs => rw [parseFilterItemYaml.eq_def]
  rw [h]
  dsimp only
  rw [if_neg (by simp), if_pos ⟨rfl, rfl, h2, h1⟩]

/-- A two-entry mapping that is not the `paths` pair is an Invalid-filter
error. -/
theorem parse_map2_other_step (k1 k2 : String) (v1 v2 excludes : Yaml) (g ign : List String)
    (h : buildIgnore excludes g = .ok ign)
    (h1 : ¬ (k1 = "paths" ∧ k2 = "paths_ignore" ∧ truthy v2 = true ∧ truthy v1 = true))
    (h2 : ¬ (k1 = "paths_ignore" ∧ k2 = "paths" ∧ truthy v1 = true ∧ truthy v2 = true)) :
    parseFilterItemYaml (Yaml.map [(k1, v1), (k2, v2)]) excludes g =
      .error (throwInvalidFormatError
        ("Expected a filter rule object with keys paths & paths_ignore, or a single key for change status filter. Instead object keys: " ++
          jsonStringList [k1, k2] ++ " found.")) := by
  unfold parseFilterItemYaml
  rw [h]
  dsimp only
  rw [if_neg h1, if_neg h2]

/-- The single-entry (status-qualified) branch of `parseFilterItemYaml`. -/
theorem parse_map1_step (k : String) (v excludes : Yaml) (g ign : List String)
    (h : buildIgnore excludes g = .ok ign) :
    parseFilterItemYaml (Yaml.map [(k, v)]) excludes g = parseStatusEntry k v ign := by
  unfold parseFilterItemYaml
  rw [h]

/-! ## Claims -/

/-- **C1.** For every parsed `FilterConfig` (rule table) and every list of
`File` records, `Filter.match` returns, for each rule in order, exactly the
sub-sequence of the input files (in input order) for which at least one
`FilterRuleItem` of that rule matches, where an item matches a file iff its
status set is absent or contains the file's status, and its pattern
predicate accepts the filename; items combine by OR and each file is
evaluated independently. -/
theorem claim1_match_is_or_of_items (rules : Rules) (files : List File) :
    List.Forall₂ (fun r m =>
      m.1 = r.1 ∧ m.2.Sublist files ∧
      m.2 = files.filter (fun f => isMatch f r.2) ∧
      (∀ f : File, isMatch f r.2 = true ↔
        ∃ it ∈ r.2, (it.status = none ∨ ∃ ss, it.status = some ss ∧ f.status ∈ ss) ∧
          it.matches f.filename = true))
      rules (Filter.match rules files) := by
  unfold Filter.match
  induction rules with
  | nil => exact List.Forall₂.nil
  | cons r rest ih =>
    exact List.Forall₂.cons ⟨rfl, List.filter_sublist _, rfl, fun f => isMatch_iff f r.2⟩ ih

/-- **C1 witness.** The characterization applied to a concrete rule table
and file list. -/
theorem claim1_witness :
    List.Forall₂ (fun r m =>
      m.1 = r.1 ∧ m.2.Sublist [⟨"src/a.js", .modified, 1, 0⟩] ∧
      m.2 = [⟨"src/a.js", .modified, 1, 0⟩].filter (fun f => isMatch f r.2) ∧
      (∀ f : File, isMatch f r.2 = true ↔
        ∃ it ∈ r.2, (it.status = none ∨ ∃ ss, it.status = some ss ∧ f.status ∈ ss) ∧
          it.matches f.filename = true))
      [("src", [⟨none, ["src/**"], []⟩])]
      (Filter.match [("src", [⟨none, ["src/**"], []⟩])] [⟨"src/a.js", .modified, 1, 0⟩]) :=
  claim1_match_is_or_of_items [("src", [⟨none, ["src/**"], []⟩])]
    [⟨"src/a.js", .modified, 1, 0⟩]

/-- **C2.** `Filter.match` always returns every configured rule name as a
key, in order; a rule with zero matching files maps to the empty list (the
key is never absent), and the empty input file list yields an empty list for
every rule. -/
theorem claim2_all_rule_names_present (rules : Rules) (files : List File) :
    (Filter.match rules files).map Prod.fst = rules.map Prod.fst ∧
    List.Forall₂ (fun r m => m.1 = r.1 ∧
        (m.2 = [] ↔ ∀ f ∈ files, isMatch f r.2 = false)) rules (Filter.match rules files) ∧
    (∀ e ∈ Filter.match rules [], e.2 = []) := by
  refine ⟨?_, ?_, ?_⟩
  · unfold Filter.match
    rw [List.map_map]
    rfl
  · unfold Filter.match
    induction rules with
    | nil => exact List.Forall₂.nil
    | cons r rest ih =>
      refine List.Forall₂.cons ⟨rfl, ?_⟩ ih
      rw [List.filter_eq_nil_iff]
      constructor
      · intro h f hf
        simpa using h f hf
      · intro h f hf
        simpa using h f hf
  · intro e he
    unfold Filter.match at he
    simp at he
    obtain ⟨a, b, _, rfl⟩ := he
    rfl

/-- **C2 witness.** The key-preservation property applied to a concrete rule
table with a non-matching rule and a nonempty file list. -/
theorem claim2_witness :
    ((Filter.match [("src", [⟨none, ["src/**"], []⟩]), ("docs", [⟨none, ["docs/**"], []⟩])]
        [⟨"src/a.js", .modified, 1, 0⟩]).map Prod.fst =
      [("src", [(⟨none, ["src/**"], []⟩ : FilterRuleItem)]),
       ("docs", [⟨none, ["docs/**"], []⟩])].map Prod.fst ∧
    List.Forall₂ (fun r m => m.1 = r.1 ∧
        (m.2 = [] ↔ ∀ f ∈ [(⟨"src/a.js", .modified, 1, 0⟩ : File)], isMatch f r.2 = false))
      [("src", [⟨none, ["src/**"], []⟩]), ("docs", [⟨none, ["docs/**"], []⟩])]
      (Filter.match [("src", [⟨none, ["src/**"], []⟩]), ("docs", [⟨none, ["docs/**"], []⟩])]
        [⟨"src/a.js", .modified, 1, 0⟩]) ∧
    (∀ e ∈ Filter.match [("src", [⟨none, ["src/**"], []⟩]), ("docs", [⟨none, ["docs/**"], []⟩])] [],
      e.2 = [])) :=
  claim2_all_rule_names_present
    [("src", [⟨none, ["src/**"], []⟩]), ("docs", [⟨none, ["docs/**"], []⟩])]
    [⟨"src/a.js", .modified, 1, 0⟩]

/-- **C3 counterexample.** Status tokens are not matched case-insensitively:
the key `Added` is rejected with an Invalid-filter error (validation runs on
the raw trimmed token, before any lowercasing), while `added` parses. -/
theorem claim3_counterexample_uppercase_status_rejected :
    (parseFilterItemYaml (Yaml.map [("Added", Yaml.str "**")]) (Yaml.seq []) [] =
      .error (throwInvalidFormatError
        "Change Status Filter Validation: Expected one of [\"added\",\"copied\",\"deleted\",\"modified\",\"renamed\",\"unmerged\"], instead Added found.")) ∧
    (parseFilterItemYaml (Yaml.map [("added", Yaml.str "**")]) (Yaml.seq []) [] =
      .ok [{status := some [.added], patterns := ["**"], ignore := []}]) := ⟨rfl, rfl⟩

/-- **C3 (amended).** Status tokens in a status-qualified mapping key are
matched case-sensitively: each `|`-delimited token is trimmed (empty tokens
dropped) and parsing succeeds iff every remaining token is exactly one of
the six lower-case `ChangeStatus` values; any other token — including
`Added` or `ADDED` — is a parse failure.  (The `toLowerCase` in the source
runs only after validation and is the identity there.) -/
theorem claim3_status_tokens_case_sensitive (key pat : String) (excl g : List String) :
    ((∀ t ∈ statusTokens key, (statusOf? t).isSome = true) →
      parseFilterItemYaml (Yaml.map [(key, Yaml.str pat)]) (Yaml.seq (excl.map Yaml.str)) g =
        .ok [{status := some ((statusTokens key).filterMap statusOf?),
              patterns := [pat], ignore := excl ++ g}]) ∧
    ((∃ t ∈ statusTokens key, statusOf? t = none) →
      ∃ msg, parseFilterItemYaml (Yaml.map [(key, Yaml.str pat)]) (Yaml.seq (excl.map Yaml.str)) g =
        .error (JsError.invalidFilter msg)) ∧
    statusOf? "added" = some .added ∧
    statusOf? "Added" = none ∧ statusOf? "ADDED" = none := by
  refine ⟨?_, ?_, rfl, rfl, rfl⟩
  · intro h
    unfold parseFilterItemYaml
    rw [buildIgnore_strings]
    show parseStatusEntry key (Yaml.str pat) (excl ++ g) = _
    unfold parseStatusEntry
    rw [mapM_checkChangeStatus_ok _ h]
    rfl
  · intro h
    obtain ⟨msg, hmsg⟩ := mapM_checkChangeStatus_err _ h
    refine ⟨msg, ?_⟩
    unfold parseFilterItemYaml
    rw [buildIgnore_strings]
    show parseStatusEntry key (Yaml.str pat) (excl ++ g) = _
    unfold parseStatusEntry
    rw [hmsg]
    rfl

/-- **C3 witness.** A multi-token lower-case key parses to the expected
status set. -/
theorem claim3_witness_lowercase_tokens_parse :
    parseFilterItemYaml (Yaml.map [("added|modified", Yaml.str "**")]) (Yaml.seq []) [] =
      .ok [{status := some [.added, .modified], patterns := ["**"], ignore := []}] := by
  have h := (claim3_status_tokens_case_sensitive "added|modified" "**" [] []).1 (by decide)
  simpa using h

/-- **C4 counterexample.** Not every mapping whose key is not a status list
fails: a mapping with the two keys `paths` and `paths_ignore` is accepted,
so the claim's closed list of three node shapes (and its "every other
mapping fails" clause) does not hold on the code. -/
theorem claim4_counterexample_paths_pair_accepted :
    load (Yaml.map [("r", Yaml.seq [Yaml.map
        [("paths", Yaml.str "src/**"), ("paths_ignore", Yaml.seq [Yaml.str "src/a.js"])]])]) [] =
      .ok [("r", [{status := none, patterns := ["src/**"], ignore := ["src/a.js"]}])] := rfl

/-- **C4 (amended).** At recursion levels below the root, exactly four node
shapes are accepted — a pattern string, a sequence, a single-key status
mapping, and a two-key `paths`/`paths_ignore` mapping whose (truthy)
`paths_ignore` value spreads into glob strings — numbers, booleans, and
mappings of any other key shape fail the load with an Invalid-filter error,
while `null` fails it with a `TypeError` (from `Object.keys(null)`), not an
Invalid-filter error; a `paths` pair whose truthy `paths_ignore` is not
spreadable (e.g. a number) also fails with a `TypeError`, and a truthy
string `paths_ignore` spreads into per-character ignore globs.
(`excludes` is the empty array `Filter.load` passes; `g` is the
constructor's `globalIgnoreArray`.) -/
theorem claim4_node_shape_taxonomy (g : List String) :
    ((∀ n : Int, parseFilterItemYaml (Yaml.num n) (Yaml.seq []) g =
        .error (throwInvalidFormatError "Unexpected element type 'number'")) ∧
     (∀ b : Bool, parseFilterItemYaml (Yaml.bool b) (Yaml.seq []) g =
        .error (throwInvalidFormatError "Unexpected element type 'boolean'")) ∧
     (parseFilterItemYaml Yaml.null (Yaml.seq []) g = .error nullObjectTypeError) ∧
     (∀ (k : String) (entries : List (String × Yaml)), ∃ msg,
        parseFilterItemYaml (Yaml.map [(k, Yaml.map entries)]) (Yaml.seq []) g =
          .error (JsError.invalidFilter msg)) ∧
     (∃ msg, parseFilterItemYaml (Yaml.map []) (Yaml.seq []) g =
        .error (JsError.invalidFilter msg)) ∧
     (∀ (k1 k2 k3 : String) (v1 v2 v3 : Yaml) (rest : List (String × Yaml)), ∃ msg,
        parseFilterItemYaml (Yaml.map ((k1, v1) :: (k2, v2) :: (k3, v3) :: rest)) (Yaml.seq []) g =
          .error (JsError.invalidFilter msg)) ∧
     (∀ (k1 k2 : String) (v1 v2 : Yaml),
        ¬ (k1 = "paths" ∧ k2 = "paths_ignore" ∧ truthy v2 = true ∧ truthy v1 = true) →
        ¬ (k1 = "paths_ignore" ∧ k2 = "paths" ∧ truthy v1 = true ∧ truthy v2 = true) →
        ∃ msg, parseFilterItemYaml (Yaml.map [(k1, v1), (k2, v2)]) (Yaml.seq []) g =
          .error (JsError.invalidFilter msg)) ∧
     (∀ s : String, parseFilterItemYaml (Yaml.str s) (Yaml.seq []) g =
        .ok [{status := none, patterns := [s], ignore := g}]) ∧
     (∀ ss : List String, parseFilterItemYaml (Yaml.seq (ss.map Yaml.str)) (Yaml.seq []) g =
        .ok [{status := none, patterns := ss, ignore := g}]) ∧
     (∀ s : String, parseFilterItemYaml (Yaml.map [("added", Yaml.str s)]) (Yaml.seq []) g =
        .ok [{status := some [.added], patterns := [s], ignore := g}]) ∧
     (∀ v1 v2 : Yaml, truthy v1 = true → truthy v2 = true →
        parseFilterItemYaml (Yaml.map [("paths", v1), ("paths_ignore", v2)]) (Yaml.seq []) g =
          parseFilterItemYaml v1 v2 g) ∧
     (∀ (v1 : Yaml) (n : Int), truthy v1 = true → truthy (Yaml.num n) = true →
        parseFilterItemYaml (Yaml.map [("paths", v1), ("paths_ignore", Yaml.num n)])
            (Yaml.seq []) g = .error (JsError.typeError "excludes is not iterable")) ∧
     (∀ p s : String, p ≠ "" → s ≠ "" →
        parseFilterItemYaml (Yaml.map [("paths", Yaml.str p), ("paths_ignore", Yaml.str s)])
            (Yaml.seq []) g =
          .ok [{status := none, patterns := [p],
                ignore := s.data.map String.singleton ++ g}])) := by
  refine ⟨fun n => rfl, fun b => rfl, rfl, ?_, ⟨_, rfl⟩, ?_, ?_, fun s => rfl, ?_,
    fun s => rfl, ?_, ?_, ?_⟩
  · intro k entries
    exact ⟨_, rfl⟩
  · intro k1 k2 k3 v1 v2 v3 rest
    exact ⟨_, rfl⟩
  · intro k1 k2 v1 v2 h1 h2
    exact ⟨_, parse_map2_other_step k1 k2 v1 v2 (Yaml.seq []) g g rfl h1 h2⟩
  · intro ss
    rw [parse_strings_step (ss.map Yaml.str) (Yaml.seq []) g g rfl
      (isStringsArray_map_str ss), stringsOf_map_str]
  · intro v1 v2 h1 h2
    exact parse_paths_step v1 v2 (Yaml.seq []) g g rfl h1 h2
  · intro v1 n h1 h2
    rw [parse_paths_step v1 (Yaml.num n) (Yaml.seq []) g g rfl h1 h2]
    exact parse_entry_error v1 (Yaml.num n) g _ rfl
  · intro p s hp hs
    have htp : truthy (Yaml.str p) = true := by
      simp only [truthy, List.isEmpty_iff, decide_not]
      simpa using string_ne_empty_data hp
    have hts : truthy (Yaml.str s) = true := by
      simp only [truthy, List.isEmpty_iff, decide_not]
      simpa using string_ne_empty_data hs
    rw [parse_paths_step (Yaml.str p) (Yaml.str s) (Yaml.seq []) g g rfl htp hts]
    exact parse_str_step p (Yaml.str s) g _ (buildIgnore_str s g)

/-- **C4 witness.** A two-key mapping that is not the `paths` pair is
rejected with an Invalid-filter error. -/
theorem claim4_witness_unknown_two_key_mapping_rejected :
    ∃ msg, parseFilterItemYaml (Yaml.map [("a", Yaml.str "x"), ("b", Yaml.str "y")])
        (Yaml.seq []) [] = .error (JsError.invalidFilter msg) :=
  (claim4_node_shape_taxonomy []).2.2.2.2.2.2.1 "a" "b" (Yaml.str "x") (Yaml.str "y")
    (by decide) (by decide)

/-- **C5 counterexample.** A document that deserializes to a sequence does
not make loading fail: `typeof` of an array is `'object'`, so the root check
passes and the array's entries become rules keyed by their indices. -/
theorem claim5_counterexample_sequence_loads :
    load (Yaml.seq [Yaml.str "src/**"]) [] =
      .ok [("0", [{status := none, patterns := ["src/**"], ignore := []}])] := rfl

/-- **C5 (amended).** A document that deserializes to a string, number or
boolean scalar fails to load with an error whose message starts with
`Invalid filter`; a `null` document fails with a `TypeError` instead; a
sequence document is not rejected by the root check. -/
theorem claim5_scalar_documents_rejected (g : List String) (s : String) (n : Int) (b : Bool) :
    (load (Yaml.str s) g = .error (throwInvalidFormatError "Root element is not an object")) ∧
    (load (Yaml.num n) g = .error (throwInvalidFormatError "Root element is not an object")) ∧
    (load (Yaml.bool b) g = .error (throwInvalidFormatError "Root element is not an object")) ∧
    ("Invalid filter".data.isPrefixOf
      ("Invalid filter YAML format: Root element is not an object.").data = true) ∧
    (load Yaml.null g = .error nullObjectTypeError) ∧
    ((load (Yaml.seq [Yaml.str "src/**"]) []).isOk = true) :=
  ⟨rfl, rfl, rfl, by decide, rfl, rfl⟩

/-- **C6.** Dot-inclusive matching: `**/*.js` matches `.test/.test.js`, and
`**` / `**/*` match every (nonempty) filename, leading-dot segments
included; the compiled matcher for `**/*.js` accepts the dotted file through
the whole parse-and-match pipeline. -/
theorem claim6_dot_inclusive_globbing (name : String) (h : name ≠ "") :
    (globMatch "**/*.js" ".test/.test.js" = true) ∧
    (globMatch "**" name = true) ∧
    (globMatch "**/*" name = true) ∧
    (parseFilterItemYaml (Yaml.str "**/*.js") (Yaml.seq []) [] =
      .ok [{status := none, patterns := ["**/*.js"], ignore := []}]) ∧
    (Filter.match [("dot", [{status := none, patterns := ["**/*.js"], ignore := []}])]
        [⟨".test/.test.js", .modified, 0, 0⟩] =
      [("dot", [⟨".test/.test.js", .modified, 0, 0⟩])]) := by
  refine ⟨?_, globMatch_doublestar h, globMatch_doublestar_star h, rfl, ?_⟩
  · simp [globMatch, segGlob, stripNegGroup, splitOnChar, matchSegs, matchChars]
  · simp [Filter.match, isMatch, FilterRuleItem.matches, pmMatch, globMatch, segGlob,
      stripNegGroup, splitOnChar, matchSegs, matchChars]

/-- **C6 witness.** The universal `**` / `**/*` parts at a concrete
filename. -/
theorem claim6_witness :
    globMatch "**" ".a/.b" = true ∧ globMatch "**/*" ".a/.b" = true :=
  ⟨(claim6_dot_inclusive_globbing ".a/.b" (by decide)).2.1,
   (claim6_dot_inclusive_globbing ".a/.b" (by decide)).2.2.1⟩

/-- **C7.** The negated extglob group `!(**/*.tsx|**/*.less)` excludes
exactly the files matching one of the inner globs: through the full
load-and-match pipeline, `src/ui.tsx` and `src/ui.less` are excluded and
`src/server.py` is included, and on every nonempty filename the pattern
matches iff neither inner glob does. -/
theorem claim7_negated_extglob_group (name : String) (h : name ≠ "") :
    (load (Yaml.map [("backend", Yaml.seq [Yaml.str "!(**/*.tsx|**/*.less)"])]) [] =
      .ok [("backend", [{status := none, patterns := ["!(**/*.tsx|**/*.less)"], ignore := []}])]) ∧
    (Filter.match [("backend", [{status := none, patterns := ["!(**/*.tsx|**/*.less)"], ignore := []}])]
        [⟨"src/ui.tsx", .modified, 0, 0⟩] = [("backend", [])]) ∧
    (Filter.match [("backend", [{status := none, patterns := ["!(**/*.tsx|**/*.less)"], ignore := []}])]
        [⟨"src/ui.less", .modified, 0, 0⟩] = [("backend", [])]) ∧
    (Filter.match [("backend", [{status := none, patterns := ["!(**/*.tsx|**/*.less)"], ignore := []}])]
        [⟨"src/server.py", .modified, 0, 0⟩] =
      [("backend", [⟨"src/server.py", .modified, 0, 0⟩])]) ∧
    (globMatch "!(**/*.tsx|**/*.less)" name = true ↔
      (globMatch "**/*.tsx" name = false ∧ globMatch "**/*.less" name = false)) := by
  have hne : name.data.isEmpty = false := data_isEmpty_false h
  refine ⟨rfl, ?_, ?_, ?_, ?_⟩
  · simp [Filter.match, isMatch, FilterRuleItem.matches, pmMatch, globMatch, segGlob,
      stripNegGroup, splitOnChar, matchSegs, matchChars]
  · simp [Filter.match, isMatch, FilterRuleItem.matches, pmMatch, globMatch, segGlob,
      stripNegGroup, splitOnChar, matchSegs, matchChars]
  · simp [Filter.match, isMatch, FilterRuleItem.matches, pmMatch, globMatch, segGlob,
      stripNegGroup, splitOnChar, matchSegs, matchChars]
  · have e1 : globMatch "**/*.tsx" name = segGlob "**/*.tsx".data name.data :=
      globMatch_eq_segGlob "**/*.tsx" name rfl rfl hne
    have e2 : globMatch "**/*.less" name = segGlob "**/*.less".data name.data :=
      globMatch_eq_segGlob "**/*.less" name rfl rfl hne
    have e0 : globMatch "!(**/*.tsx|**/*.less)" name
        = !(segGlob "**/*.tsx".data name.data || segGlob "**/*.less".data name.data) := by
      unfold globMatch
      rw [if_neg (by simp [hne])]
      have hstrip : stripNegGroup "!(**/*.tsx|**/*.less)".data =
        some "**/*.tsx|**/*.less".data := rfl
      rw [hstrip]
      show (!(splitOnChar '|' "**/*.tsx|**/*.less".data).any fun p => segGlob p name.data) = _
      have hsp : splitOnChar '|' "**/*.tsx|**/*.less".data =
        ["**/*.tsx".data, "**/*.less".data] := rfl
      rw [hsp]
      simp [List.any]
    rw [e0, e1, e2]
    cases segGlob "**/*.tsx".data name.data <;> cases segGlob "**/*.less".data name.data <;> simp

/-- **C7 witness.** The equivalence at the concrete included filename. -/
theorem claim7_witness :
    globMatch "!(**/*.tsx|**/*.less)" "src/server.py" = true ↔
      (globMatch "**/*.tsx" "src/server.py" = false ∧
       globMatch "**/*.less" "src/server.py" = false) :=
  (claim7_negated_extglob_group "src/server.py" (by decide)).2.2.2.2

/-- **C8.** Evaluation is total on empty patterns and empty filenames: an
empty pattern string parses into a matcher (no error), that matcher and the
empty glob match nothing, no matcher accepts the empty filename, and a file
with an empty filename matches no rule item. -/
theorem claim8_empty_pattern_and_filename (excl g ps ig : List String) (name : String) :
    (parseFilterItemYaml (Yaml.str "") (Yaml.seq (excl.map Yaml.str)) g =
      .ok [{status := none, patterns := [""], ignore := excl ++ g}]) ∧
    (globMatch "" name = false) ∧
    (FilterRuleItem.matches {status := none, patterns := [""], ignore := ig} name = false) ∧
    (pmMatch ps ig "" = false) ∧
    (∀ f : File, f.filename = "" →
      isMatch f [{status := none, patterns := ps, ignore := ig}] = false) := by
  refine ⟨?_, globMatch_empty_pattern name, ?_, pmMatch_empty_name ps ig, ?_⟩
  · unfold parseFilterItemYaml
    rw [buildIgnore_strings]
  · unfold FilterRuleItem.matches pmMatch
    simp [globMatch_empty_pattern]
  · intro f hf
    unfold isMatch
    simp only [List.any_cons, List.any_nil]
    rw [hf]
    simp [FilterRuleItem.matches, pmMatch_empty_name]

/-- **C8 witness.** A file with the empty filename is matched by no rule. -/
theorem claim8_witness :
    isMatch ⟨"", .modified, 0, 0⟩ [{status := none, patterns := ["**"], ignore := []}] = false :=
  (claim8_empty_pattern_and_filename [] [] ["**"] [] "x").2.2.2.2
    ⟨"", .modified, 0, 0⟩ rfl

/-- **C9.** Result aggregation over `FilterResults`: `anyChanged` is the OR
of per-rule `hasMatch`, `allChanged` the AND (vacuously true with zero
rules), `changedRuleNames` the rule names with a match in rule-definition
order, and `exportResults` emits the per-rule boolean and `_count` outputs
and the `changes` output (the JSON list of the changed rule names) whenever
no rule is itself named `changes` — all computed from the results alone. -/
theorem claim9_result_aggregation (results : FilterResults) (fmt : ExportFormat) :
    (anyChanged results = true ↔ ∃ p ∈ results, p.2 ≠ []) ∧
    (allChanged results = true ↔ ∀ p ∈ results, p.2 ≠ []) ∧
    (allChanged [] = true) ∧
    (changedRuleNames results = (results.filter fun p => decide (p.2 ≠ [])).map Prod.fst) ∧
    (∀ p ∈ results,
      (p.1, OutValue.boolean (decide (p.2.length > 0))) ∈ exportResults results fmt ∧
      (p.1 ++ "_count", OutValue.number p.2.length) ∈ exportResults results fmt) ∧
    ((results.lookup "changes").isNone = true →
      ("changes", OutValue.string (jsonStringList (changedRuleNames results)))
        ∈ exportResults results fmt) := by
  refine ⟨?_, ?_, rfl, ?_, ?_, ?_⟩
  · rw [anyChanged, List.any_eq_true]
    constructor
    · rintro ⟨p, hp, h⟩
      exact ⟨p, hp, by simpa [List.length_pos] using h⟩
    · rintro ⟨p, hp, h⟩
      exact ⟨p, hp, by simpa [List.length_pos] using h⟩
  · rw [allChanged, List.all_eq_true]
    constructor
    · intro h p hp
      simpa [List.length_pos] using h p hp
    · intro h p hp
      simpa [List.length_pos] using h p hp
  · rw [changedRuleNames]
    congr 1
    apply List.filter_congr
    intro p _
    cases hp : p.2 <;> simp [hp]
  · intro p hp
    constructor
    · apply List.mem_append_left
      rw [List.mem_flatten]
      refine ⟨_, List.mem_map_of_mem _ hp, ?_⟩
      simp
    · apply List.mem_append_left
      rw [List.mem_flatten]
      refine ⟨_, List.mem_map_of_mem _ hp, ?_⟩
      simp
  · intro h
    apply List.mem_append_right
    rw [if_pos h]
    exact List.mem_cons_self _ _

/-- **C9 witness.** The `changes` output at the repository's own test
scenario (`src` changed, `docs` unchanged). -/
theorem claim9_witness :
    ("changes", OutValue.string (jsonStringList (changedRuleNames
        [("src", [⟨"src/file.ts", .modified, 0, 0⟩]), ("docs", [])])))
      ∈ exportResults [("src", [⟨"src/file.ts", .modified, 0, 0⟩]), ("docs", [])] .nofmt :=
  (claim9_result_aggregation
    [("src", [⟨"src/file.ts", .modified, 0, 0⟩]), ("docs", [])] .nofmt).2.2.2.2.2 rfl

/-- **C10 counterexample.** Parsing does not succeed for every truthy
`paths_ignore`: a truthy number (here `5`) is spread into
`MatchOptions.ignore` at the top of the recursive call
(`MatchOptions.ignore.push(...excludes, ...)`), and spreading a
non-iterable value throws a `TypeError`. -/
theorem claim10_counterexample_noniterable_paths_ignore :
    parseFilterItemYaml (Yaml.map [("paths", Yaml.str "src/**"), ("paths_ignore", Yaml.num 5)])
        (Yaml.seq []) [] = .error (JsError.typeError "excludes is not iterable") := rfl

/-- **C10 (amended).** A mapping with exactly the two truthy keys `paths`
and `paths_ignore` (in either key order) recurses into the `paths` node with
the raw `paths_ignore` value as the excludes.  When `paths_ignore` is an
array of pattern strings, parsing a pattern-string `paths` node succeeds and
the matcher's ignore globs are exactly those strings followed by the
constructor's `globalIgnoreArray`, and any matcher carrying those ignore
globs rejects every filename matched by one of them, even when its own
pattern matches.  When `paths_ignore` is a truthy string, it spreads into
per-character ignore globs; when it is a truthy non-iterable (number or
nested mapping), parsing throws a `TypeError`. -/
theorem claim10_paths_ignore_excludes (v1 : Yaml) (igs excl g : List String)
    (h1 : truthy v1 = true) :
    (parseFilterItemYaml (Yaml.map [("paths", v1), ("paths_ignore", Yaml.seq (igs.map Yaml.str))])
        (Yaml.seq (excl.map Yaml.str)) g =
      parseFilterItemYaml v1 (Yaml.seq (igs.map Yaml.str)) g) ∧
    (parseFilterItemYaml (Yaml.map [("paths_ignore", Yaml.seq (igs.map Yaml.str)), ("paths", v1)])
        (Yaml.seq (excl.map Yaml.str)) g =
      parseFilterItemYaml v1 (Yaml.seq (igs.map Yaml.str)) g) ∧
    (∀ s : String, s ≠ "" →
      parseFilterItemYaml (Yaml.map [("paths", Yaml.str s),
          ("paths_ignore", Yaml.seq (igs.map Yaml.str))]) (Yaml.seq (excl.map Yaml.str)) g =
        .ok [{status := none, patterns := [s], ignore := igs ++ g}]) ∧
    (∀ (it : FilterRuleItem) (name : String),
      it.ignore = igs ++ g →
      igs.any (fun p => globMatch p name) = true →
      it.matches name = false) ∧
    (∀ p s : String, p ≠ "" → s ≠ "" →
      parseFilterItemYaml (Yaml.map [("paths", Yaml.str p), ("paths_ignore", Yaml.str s)])
          (Yaml.seq (excl.map Yaml.str)) g =
        .ok [{status := none, patterns := [p],
              ignore := s.data.map String.singleton ++ g}]) ∧
    (∀ n : Int, truthy (Yaml.num n) = true →
      parseFilterItemYaml (Yaml.map [("paths", v1), ("paths_ignore", Yaml.num n)])
          (Yaml.seq (excl.map Yaml.str)) g =
        .error (JsError.typeError "excludes is not iterable")) ∧
    (∀ entries : List (String × Yaml),
      parseFilterItemYaml (Yaml.map [("paths", v1), ("paths_ignore", Yaml.map entries)])
          (Yaml.seq (excl.map Yaml.str)) g =
        .error (JsError.typeError "excludes is not iterable")) := by
  refine ⟨?_, ?_, ?_, ?_, ?_, ?_, ?_⟩
  · exact parse_paths_step v1 (Yaml.seq (igs.map Yaml.str)) (Yaml.seq (excl.map Yaml.str))
      g (excl ++ g) (buildIgnore_strings excl g) h1 rfl
  · exact parse_paths_swapped_step v1 (Yaml.seq (igs.map Yaml.str))
      (Yaml.seq (excl.map Yaml.str)) g (excl ++ g) (buildIgnore_strings excl g) h1 rfl
  · intro s hs
    have hts : truthy (Yaml.str s) = true := by
      simp only [truthy, List.isEmpty_iff, decide_not]
      simpa using string_ne_empty_data hs
    rw [parse_paths_step (Yaml.str s) (Yaml.seq (igs.map Yaml.str))
      (Yaml.seq (excl.map Yaml.str)) g (excl ++ g) (buildIgnore_strings excl g) hts rfl]
    exact parse_str_step s (Yaml.seq (igs.map Yaml.str)) g (igs ++ g)
      (buildIgnore_strings igs g)
  · intro it name hig hany
    unfold FilterRuleItem.matches
    apply pmMatch_ignored
    rw [hig, List.any_append, hany]
    rfl
  · intro p sv hp hs
    have htp : truthy (Yaml.str p) = true := by
      simp only [truthy, List.isEmpty_iff, decide_not]
      simpa using string_ne_empty_data hp
    have hts : truthy (Yaml.str sv) = true := by
      simp only [truthy, List.isEmpty_iff, decide_not]
      simpa using string_ne_empty_data hs
    rw [parse_paths_step (Yaml.str p) (Yaml.str sv) (Yaml.seq (excl.map Yaml.str))
      g (excl ++ g) (buildIgnore_strings excl g) htp hts]
    exact parse_str_step p (Yaml.str sv) g _ (buildIgnore_str sv g)
  · intro n hn
    rw [parse_paths_step v1 (Yaml.num n) (Yaml.seq (excl.map Yaml.str))
      g (excl ++ g) (buildIgnore_strings excl g) h1 hn]
    exact parse_entry_error v1 (Yaml.num n) g _ rfl
  · intro entries
    rw [parse_paths_step v1 (Yaml.map entries) (Yaml.seq (excl.map Yaml.str))
      g (excl ++ g) (buildIgnore_strings excl g) h1 rfl]
    exact parse_entry_error v1 (Yaml.map entries) g _ rfl

/-- **C10 witness.** A concrete string-array `paths_ignore` propagated into
the matcher's ignore globs. -/
theorem claim10_witness :
    parseFilterItemYaml (Yaml.map [("paths", Yaml.str "src/**"),
        ("paths_ignore", Yaml.seq [Yaml.str "src/a.js"])]) (Yaml.seq []) [] =
      .ok [{status := none, patterns := ["src/**"], ignore := ["src/a.js"]}] :=
  (claim10_paths_ignore_excludes (Yaml.str "x") ["src/a.js"] [] []
    (by decide)).2.2.1 "src/**" (by decide)

end PathsFilter
